import Mathlib

set_option maxRecDepth 100000

/-!
Verification development for the SM3 digest module (`src/sm3.js`) of the
speakeasy repository: a shallow embedding of the digest engine, the keyed-MAC
construction and the key-derivation function, together with theorems settling
the specification claims.

Byte arrays are embedded as `List Nat`; JavaScript 32-bit coercions are made
explicit as `% 2^32` (and `% 256` for byte stores).  All definitions are
translated line by line from `src/sm3.js`.
-/

namespace SM3

/-- Embeds `sm3_memcpy(dst, dst_offset, src, src_offset, len)`: copies `len` bytes,
one at a time, from `src` starting at `src_offset` into `dst` starting at
`dst_offset` (src/sm3.js lines 11-15). -/
def sm3_memcpy (dst : List Nat) (dst_offset : Nat) (src : List Nat)
    (src_offset : Nat) : Nat → List Nat
  | 0 => dst
  | len + 1 =>
    sm3_memcpy (dst.set dst_offset (src.getD src_offset 0)) (dst_offset + 1)
      src (src_offset + 1) len

/-- Embeds `sm3_memset(dst, offset, value, len)` (src/sm3.js lines 17-21). -/
def sm3_memset (dst : List Nat) (offset value : Nat) : Nat → List Nat
  | 0 => dst
  | len + 1 => sm3_memset (dst.set offset value) (offset + 1) value len

/-- Embeds `SM3_GETU32(data, offset)`: big-endian 32-bit load
`((d0<<24)|(d1<<16)|(d2<<8)|d3)>>>0` (src/sm3.js lines 23-28).  The shifted
summands are reduced mod 2^32 as JavaScript's 32-bit bitwise-or does. -/
def SM3_GETU32 (data : List Nat) (offset : Nat) : Nat :=
  (data.getD offset 0 * 2 ^ 24 % 2 ^ 32) |||
    (data.getD (offset + 1) 0 * 2 ^ 16 % 2 ^ 32) |||
    (data.getD (offset + 2) 0 * 2 ^ 8 % 2 ^ 32) |||
    (data.getD (offset + 3) 0 % 2 ^ 32)

/-- Embeds `SM3_PUTU32(data, offset, value)`: big-endian 32-bit store; each byte is
`(value >>> 8k) & 0xff` (src/sm3.js lines 30-38). -/
def SM3_PUTU32 (data : List Nat) (offset value : Nat) : List Nat :=
  ((((data.set (offset + 3) (value % 256)).set (offset + 2)
      (value / 2 ^ 8 % 256)).set (offset + 1)
      (value / 2 ^ 16 % 256)).set offset (value / 2 ^ 24 % 256))

/-- Embeds `SM3_ROL32(x, n) = ((x << n) | (x >>> (32 - n))) >>> 0`
(src/sm3.js lines 135-137). -/
def SM3_ROL32 (x n : Nat) : Nat :=
  (x * 2 ^ n % 2 ^ 32) ||| (x % 2 ^ 32 / 2 ^ (32 - n))

/-- Embeds `SM3_P0(x) = x ^ rol(x,9) ^ rol(x,17)` (src/sm3.js lines 139-141). -/
def SM3_P0 (x : Nat) : Nat := x ^^^ SM3_ROL32 x 9 ^^^ SM3_ROL32 x 17

/-- Embeds `SM3_P1(x) = x ^ rol(x,15) ^ rol(x,23)` (src/sm3.js lines 143-145). -/
def SM3_P1 (x : Nat) : Nat := x ^^^ SM3_ROL32 x 15 ^^^ SM3_ROL32 x 23

/-- Embeds `SM3_FF00(x,y,z) = x ^ y ^ z` (rounds 0-15, src/sm3.js lines 147-149). -/
def SM3_FF00 (x y z : Nat) : Nat := x ^^^ y ^^^ z

/-- Embeds `SM3_FF16(x,y,z) = (x&y)|(x&z)|(y&z)` (rounds 16-63, src/sm3.js
lines 151-153). -/
def SM3_FF16 (x y z : Nat) : Nat := (x &&& y) ||| (x &&& z) ||| (y &&& z)

/-- Embeds `SM3_GG00(x,y,z) = x ^ y ^ z` (src/sm3.js lines 155-157). -/
def SM3_GG00 (x y z : Nat) : Nat := x ^^^ y ^^^ z

/-- Embeds `SM3_GG16(x,y,z) = ((y^z)&x) ^ z` (src/sm3.js lines 159-161). -/
def SM3_GG16 (x y z : Nat) : Nat := ((y ^^^ z) &&& x) ^^^ z

/-- The 64 round constants `K` (src/sm3.js lines 176-193). -/
def K : List Nat :=
  [0x79cc4519, 0xf3988a32, 0xe7311465, 0xce6228cb,
   0x9cc45197, 0x3988a32f, 0x7311465e, 0xe6228cbc,
   0xcc451979, 0x988a32f3, 0x311465e7, 0x6228cbce,
   0xc451979c, 0x88a32f39, 0x11465e73, 0x228cbce6,
   0x9d8a7a87, 0x3b14f50f, 0x7629ea1e, 0xec53d43c,
   0xd8a7a879, 0xb14f50f3, 0x629ea1e7, 0xc53d43ce,
   0x8a7a879d, 0x14f50f3b, 0x29ea1e76, 0x53d43cec,
   0xa7a879d8, 0x4f50f3b1, 0x9ea1e762, 0x3d43cec5,
   0x7a879d8a, 0xf50f3b14, 0xea1e7629, 0xd43cec53,
   0xa879d8a7, 0x50f3b14f, 0xa1e7629e, 0x43cec53d,
   0x879d8a7a, 0x0f3b14f5, 0x1e7629ea, 0x3cec53d4,
   0x79d8a7a8, 0xf3b14f50, 0xe7629ea1, 0xcec53d43,
   0x9d8a7a87, 0x3b14f50f, 0x7629ea1e, 0xec53d43c,
   0xd8a7a879, 0xb14f50f3, 0x629ea1e7, 0xc53d43ce,
   0x8a7a879d, 0x14f50f3b, 0x29ea1e76, 0x53d43cec,
   0xa7a879d8, 0x4f50f3b1, 0x9ea1e762, 0x3d43cec5]

/-- The eight working registers `(A,B,C,D,E,F,G,H)`. -/
def Regs : Type := Nat × Nat × Nat × Nat × Nat × Nat × Nat × Nat

/-- One step of the message-expansion loop
`W[j] = P1(W[j-16] ^ W[j-9] ^ rol(W[j-3],15)) ^ rol(W[j-13],7) ^ W[j-6]`
(src/sm3.js lines 210-214), reading the entries already computed. -/
def wextStep (w : List Nat) (j : Nat) : Nat :=
  (SM3_P1 (w.getD (j - 16) 0 ^^^ w.getD (j - 9) 0 ^^^
      SM3_ROL32 (w.getD (j - 3) 0) 15) ^^^
    SM3_ROL32 (w.getD (j - 13) 0) 7 ^^^ w.getD (j - 6) 0) % 2 ^ 32

/-- Runs the expansion loop `k` more times; the loop index `j` is the current
length of the partial schedule. -/
def Wext (w : List Nat) : Nat → List Nat
  | 0 => w
  | k + 1 => Wext (w ++ [wextStep w w.length]) k

/-- The full 68-word message schedule of one block: 16 big-endian loads
(src/sm3.js lines 206-208) followed by 52 expansion steps (lines 210-214). -/
def sm3_W (data : List Nat) (offset : Nat) : List Nat :=
  Wext ((List.range 16).map fun j => SM3_GETU32 data (offset + j * 4)) 52

/-- The body of one compression round (src/sm3.js lines 219-239 and 241-261;
the two loops differ only in the boolean functions `ff`/`gg`). -/
def sm3_round (ff gg : Nat → Nat → Nat → Nat) (w : List Nat) (j : Nat) :
    Regs → Regs
  | (A, B, C, D, E, F, G, H) =>
    let SS1 := SM3_ROL32 ((SM3_ROL32 A 12 + E + K.getD j 0) % 2 ^ 32) 7
    let SS2 := (SS1 ^^^ SM3_ROL32 A 12) % 2 ^ 32
    let Wp := (w.getD j 0 ^^^ w.getD (j + 4) 0) % 2 ^ 32
    let TT1 := (ff A B C + D + SS2 + Wp) % 2 ^ 32
    let TT2 := (gg E F G + H + SS1 + w.getD j 0) % 2 ^ 32
    (TT1, A, SM3_ROL32 B 9, C, SM3_P0 TT2, E, SM3_ROL32 F 19, G)

/-- The feed-forward `state[i] ^= register[i]` for `i = 0..7`
(src/sm3.js lines 263-270). -/
def feedForward (st : List Nat) : Regs → List Nat
  | (A, B, C, D, E, F, G, H) =>
    let s0 := st.set 0 (st.getD 0 0 ^^^ A)
    let s1 := s0.set 1 (s0.getD 1 0 ^^^ B)
    let s2 := s1.set 2 (s1.getD 2 0 ^^^ C)
    let s3 := s2.set 3 (s2.getD 3 0 ^^^ D)
    let s4 := s3.set 4 (s3.getD 4 0 ^^^ E)
    let s5 := s4.set 5 (s4.getD 5 0 ^^^ F)
    let s6 := s5.set 6 (s5.getD 6 0 ^^^ G)
    s6.set 7 (s6.getD 7 0 ^^^ H)

/-- One iteration of the `while (blocks--)` loop of `sm3_compress_blocks`
(src/sm3.js lines 196-271): load registers, build the schedule, run rounds
0-15 with `FF00`/`GG00` and 16-63 with `FF16`/`GG16`, then feed forward. -/
def sm3_compress1 (st : List Nat) (data : List Nat) (offset : Nat) :
    List Nat :=
  let w := sm3_W data offset
  let r0 : Regs := (st.getD 0 0, st.getD 1 0, st.getD 2 0, st.getD 3 0,
    st.getD 4 0, st.getD 5 0, st.getD 6 0, st.getD 7 0)
  let r1 := (List.range 16).foldl
    (fun r j => sm3_round SM3_FF00 SM3_GG00 w j r) r0
  let r2 := (List.range' 16 48).foldl
    (fun r j => sm3_round SM3_FF16 SM3_GG16 w j r) r1
  feedForward st r2

/-- Embeds `sm3_compress_blocks(state, data, offset, blocks)` (src/sm3.js
lines 163-272).  Note that the source's `while (blocks--)` loop never
advances `offset`, so every iteration reads the same 64-byte window; the
embedding reproduces that. -/
def sm3_compress_blocks (st : List Nat) (data : List Nat) (offset : Nat) :
    Nat → List Nat
  | 0 => st
  | blocks + 1 =>
    sm3_compress_blocks (sm3_compress1 st data offset) data offset blocks

/-- Embeds `sm3_compress(state, block) = sm3_compress_blocks(state, block, 0, 1)`
(src/sm3.js lines 71-73). -/
def sm3_compress (st block : List Nat) : List Nat :=
  sm3_compress_blocks st block 0 1

/-- The digest context: 8-word chaining `state`, 64-byte scratch `block`,
block counter `nblocks`, scratch fill count `num` (src/sm3.js lines 44-53). -/
structure SM3Ctx where
  state : List Nat
  block : List Nat
  nblocks : Nat
  num : Nat

/-- Embeds `sm3_init(ctx)` (src/sm3.js lines 55-69): zero the scratch block, reset
the counters, and store the eight initial constants into the state words. -/
def sm3_init (c : SM3Ctx) : SM3Ctx :=
  { block := sm3_memset c.block 0 0 64
    nblocks := 0
    num := 0
    state :=
      (((((((c.state.set 0 0x7380166F).set 1 0x4914B2B9).set 2
        0x172442D7).set 3 0xDA8A0600).set 4 0xA96F30BC).set 5
        0x163138AA).set 6 0xE38DEE4D).set 7 0xB0FB0E4E }

/-- Embeds `sm3_ctx_new()` (src/sm3.js lines 44-53): fresh arrays, then `sm3_init`. -/
def sm3_ctx_new : SM3Ctx :=
  sm3_init ⟨List.replicate 8 0, List.replicate 64 0, 0, 0⟩

/-- The tail of `sm3_update` (src/sm3.js lines 96-107): bulk-compress the
complete 64-byte blocks left in `data` and buffer the remainder. -/
def sm3_update_bulk (c : SM3Ctx) (data : List Nat) (off len : Nat) : SM3Ctx :=
  let blocks := len / 64
  let c1 :=
    if 0 < blocks then
      { c with state := sm3_compress_blocks c.state data off blocks
               nblocks := c.nblocks + blocks }
    else c
  let off1 := off + 64 * blocks
  let len1 := len - 64 * blocks
  { c1 with num := len1
            block := if len1 ≠ 0 then sm3_memcpy c1.block 0 data off1 len1
              else c1.block }

/-- Embeds `sm3_update(ctx, data)` (src/sm3.js lines 75-108). -/
def sm3_update (c : SM3Ctx) (data : List Nat) : SM3Ctx :=
  if c.num ≠ 0 then
    let left := 64 - c.num
    if data.length < left then
      { c with block := sm3_memcpy c.block c.num data 0 data.length
               num := c.num + data.length }
    else
      let b := sm3_memcpy c.block c.num data 0 left
      let c1 : SM3Ctx :=
        { c with block := b
                 state := sm3_compress_blocks c.state b 0 1
                 nblocks := c.nblocks + 1 }
      sm3_update_bulk c1 data left (data.length - left)
  else sm3_update_bulk c data 0 data.length

/-- Embeds `sm3_final(ctx, digest)` (src/sm3.js lines 110-133).  The caller's
`digest` output buffer is an explicit argument, as in the source; the pair
returned is (mutated context, mutated digest buffer).  `hi` embeds the
JavaScript `ctx.nblocks >>> 23` (a 32-bit unsigned shift, hence the
`% 2^32`), `lo` embeds `((ctx.nblocks << 9) + (ctx.num << 3)) & 0xffffffff`. -/
def sm3_final (c : SM3Ctx) (digest : List Nat) : SM3Ctx × List Nat :=
  let b0 := c.block.set c.num 0x80
  let stb1 :=
    if c.num + 9 ≤ 64 then
      (c.state, sm3_memset b0 (c.num + 1) 0 (64 - c.num - 9))
    else
      let bfull := sm3_memset b0 (c.num + 1) 0 (64 - c.num - 1)
      (sm3_compress c.state bfull, sm3_memset bfull 0 0 (64 - 8))
  let hi := c.nblocks % 2 ^ 32 / 2 ^ 23
  let lo := (c.nblocks * 2 ^ 9 + c.num * 2 ^ 3) % 2 ^ 32
  let b2 := SM3_PUTU32 (SM3_PUTU32 stb1.2 56 hi) 60 lo
  let st2 := sm3_compress stb1.1 b2
  let digest' := (List.range 8).foldl
    (fun d i => SM3_PUTU32 d (i * 4) (st2.getD i 0)) digest
  ({ c with state := st2, block := b2 }, digest')

/-- Embeds `sm3(m)` one-shot digest (src/sm3.js lines 274-282): fresh context,
`sm3_init`, one `sm3_update`, `sm3_final` into a fresh 32-byte buffer. -/
def sm3 (m : List Nat) : List Nat :=
  (sm3_final (sm3_update (sm3_init sm3_ctx_new) m) (List.replicate 32 0)).2

/-- Embeds `SM3_HMAC_IPAD = 0x36` (src/sm3.js line 284). -/
def SM3_HMAC_IPAD : Nat := 0x36

/-- Embeds `SM3_HMAC_OPAD = 0x5C` (src/sm3.js line 285). -/
def SM3_HMAC_OPAD : Nat := 0x5C

/-- The MAC context: inner digest context plus the 64-byte masked key block
(src/sm3.js lines 287-293). -/
structure HmacCtx where
  sm3_ctx : SM3Ctx
  key : List Nat

/-- Embeds `sm3_hmac_ctx_new()` (src/sm3.js lines 287-293). -/
def sm3_hmac_ctx_new : HmacCtx :=
  ⟨sm3_ctx_new, List.replicate 64 0⟩

/-- The `for (i = 0; i < 64; i++) ctx.key[i] ^= c` loops of `sm3_hmac_init`
(src/sm3.js lines 319-321) and `sm3_hmac_final` (lines 342-344). -/
def sm3_xor_key (key : List Nat) (c : Nat) : List Nat :=
  (List.range 64).foldl (fun k i => k.set i (k.getD i 0 ^^^ c)) key

/-- Embeds `sm3_hmac_init(ctx, key)` (src/sm3.js lines 304-325): derive the 64-byte
key block (zero-padded key if `key.length <= 64`, else zero-padded digest of
the key, written into `ctx.key` by `sm3_final`), XOR it with the inner pad,
then initialize the inner context and feed it the masked key block. -/
def sm3_hmac_init (ctx : HmacCtx) (key : List Nat) : HmacCtx :=
  let c0 := ctx.sm3_ctx
  let kc :
      List Nat × SM3Ctx :=
    if key.length ≤ 64 then
      (sm3_memset (sm3_memcpy ctx.key 0 key 0 key.length) key.length 0
        (64 - key.length), c0)
    else
      let fr := sm3_final (sm3_update (sm3_init c0) key) ctx.key
      (sm3_memset fr.2 32 0 (64 - 32), fr.1)
  let key1 := sm3_xor_key kc.1 SM3_HMAC_IPAD
  ⟨sm3_update (sm3_init kc.2) key1, key1⟩

/-- Embeds `sm3_hmac_update(ctx, data)` (src/sm3.js lines 336-338). -/
def sm3_hmac_update (ctx : HmacCtx) (data : List Nat) : HmacCtx :=
  ⟨sm3_update ctx.sm3_ctx data, ctx.key⟩

/-- Embeds `sm3_hmac_final(ctx, mac)` (src/sm3.js lines 340-350): toggle the key
block from the inner-pad mask to the outer-pad mask, finalize the inner hash
into `mac`, then re-init and hash `key ‖ mac` into `mac`. -/
def sm3_hmac_final (ctx : HmacCtx) (mac : List Nat) : HmacCtx × List Nat :=
  let key1 := sm3_xor_key ctx.key (SM3_HMAC_IPAD ^^^ SM3_HMAC_OPAD)
  let f1 := sm3_final ctx.sm3_ctx mac
  let c2 := sm3_update (sm3_update (sm3_init f1.1) key1) f1.2
  let f2 := sm3_final c2 f1.2
  (⟨f2.1, key1⟩, f2.2)

/-- Embeds `sm3_hmac(data, key, mac)` (src/sm3.js lines 352-358); the `mac` output
buffer is a fresh 32-byte array and the final context is discarded by
`sm3_hmac_ctx_free`. -/
def sm3_hmac (data key : List Nat) : List Nat :=
  (sm3_hmac_final (sm3_hmac_update (sm3_hmac_init sm3_hmac_ctx_new key) data)
    (List.replicate 32 0)).2

/-- Embeds `sm3_kdf(Z, klen)` (src/sm3.js lines 360-376).  `klen` is an integer as
in the source (which performs no validation): the loop runs
`Math.ceil(klen/32)` times (never for `klen <= 0`), each iteration hashing
`Z` then the 4-byte big-endian counter `ct = i+1` with the shared context,
and the result is `key.slice(0, klen)` — JavaScript's `slice` clamps a
negative end index relative to the end of the array. -/
def sm3_kdf (Z : List Nat) (klen : Int) : List Nat :=
  let iters : Nat := (((klen + 31).fdiv 32)).toNat
  let res := (List.range iters).foldl
    (fun (acc : List Nat × SM3Ctx) i =>
      let c1 := sm3_init acc.2
      let c2 := sm3_update c1 Z
      let buf := SM3_PUTU32 (List.replicate 4 0) 0 (i + 1)
      let c3 := sm3_update c2 buf
      let fr := sm3_final c3 (List.replicate 32 0)
      (acc.1 ++ fr.2, fr.1))
    ([], sm3_ctx_new)
  let key := res.1
  if klen < 0 then key.take ((key.length : Int) + klen).toNat
  else key.take klen.toNat

/-! ### Memory-level model for the frame claim

To state that the digest operations never write to the caller's input
arrays, the mutating functions are re-traced over an explicit store mapping
array identifiers to byte lists; every assignment of the source targets the
array named at the corresponding call site. -/

/-- A store of arrays, addressed by identifier. -/
def Mem : Type := Nat → List Nat

/-- Overwrite one array of the store. -/
def memWrite (m : Mem) (i : Nat) (l : List Nat) : Mem :=
  fun j => if j = i then l else m j

/-- Version of `sm3_memcpy` over the store: each loop iteration writes one element of
the destination array `dst`, reading the source array `src`
(src/sm3.js lines 11-15). -/
def sm3_memcpy_mem (m : Mem) (dst dst_offset src src_offset : Nat) :
    Nat → Mem
  | 0 => m
  | len + 1 =>
    sm3_memcpy_mem
      (memWrite m dst ((m dst).set dst_offset ((m src).getD src_offset 0)))
      dst (dst_offset + 1) src (src_offset + 1) len

/-- Version of `sm3_compress_blocks` over the store: each `while (blocks--)` iteration
reads the `data` array and assigns only the eight `state` words
(src/sm3.js lines 163-272). -/
def sm3_compress_blocks_mem (m : Mem) (st data offset : Nat) : Nat → Mem
  | 0 => m
  | blocks + 1 =>
    sm3_compress_blocks_mem
      (memWrite m st (sm3_compress1 (m st) (m data) offset))
      st data offset blocks

/-- The tail of `sm3_update` over the store (src/sm3.js lines 96-107);
returns the store together with the updated `nblocks` and `num` scalars. -/
def sm3_update_bulk_mem (m : Mem) (st blk data : Nat)
    (nblocks off len : Nat) : Mem × Nat × Nat :=
  let blocks := len / 64
  let m1 := if 0 < blocks then sm3_compress_blocks_mem m st data off blocks
    else m
  let nb1 := if 0 < blocks then nblocks + blocks else nblocks
  let off1 := off + 64 * blocks
  let len1 := len - 64 * blocks
  let m2 := if len1 ≠ 0 then sm3_memcpy_mem m1 blk 0 data off1 len1 else m1
  (m2, nb1, len1)

/-- Version of `sm3_update(ctx, data)` over the store (src/sm3.js lines 75-108): the
context's arrays are `st` (state) and `blk` (scratch block), the caller's
input array is `data`. -/
def sm3_update_mem (m : Mem) (st blk data : Nat) (nblocks num : Nat) :
    Mem × Nat × Nat :=
  let dlen := (m data).length
  if num ≠ 0 then
    let left := 64 - num
    if dlen < left then
      (sm3_memcpy_mem m blk num data 0 dlen, nblocks, num + dlen)
    else
      let m1 := sm3_memcpy_mem m blk num data 0 left
      let m2 := sm3_compress_blocks_mem m1 st blk 0 1
      sm3_update_bulk_mem m2 st blk data (nblocks + 1) left (dlen - left)
  else sm3_update_bulk_mem m st blk data nblocks 0 dlen

/-! ### Specification-side definitions -/

/-- Big-endian 4-byte encoding of a 32-bit word, as the spec describes the
codec output. -/
def be32 (v : Nat) : List Nat :=
  [v / 2 ^ 24 % 256, v / 2 ^ 16 % 256, v / 2 ^ 8 % 256, v % 256]

/-- Big-endian 8-byte encoding of a 64-bit value, split into the high word
`v / 2^32` and the low word `v mod 2^32` as the spec describes the length
field. -/
def be64 (v : Nat) : List Nat := be32 (v / 2 ^ 32) ++ be32 v

/-- The spec's big-endian 32-bit load: four consecutive bytes interpreted
as a big-endian unsigned integer (spec section 4.1). -/
def readBE32 (b : List Nat) (offset : Nat) : Nat :=
  b.getD offset 0 * 2 ^ 24 + b.getD (offset + 1) 0 * 2 ^ 16 +
    b.getD (offset + 2) 0 * 2 ^ 8 + b.getD (offset + 3) 0

/-- The message schedule exactly as claim C2 words it: `W[j]` is the `j`-th
big-endian word of the block for `j < 16` and
`P1(W[j-16] xor W[j-9] xor rotl(W[j-3],15)) xor rotl(W[j-13],7) xor W[j-6]`
(mod 2^32) for `16 ≤ j`. -/
def Wspec (blk : List Nat) (j : Nat) : Nat :=
  if j < 16 then readBE32 blk (j * 4)
  else
    (SM3_P1 (Wspec blk (j - 16) ^^^ Wspec blk (j - 9) ^^^
        SM3_ROL32 (Wspec blk (j - 3)) 15) ^^^
      SM3_ROL32 (Wspec blk (j - 13)) 7 ^^^ Wspec blk (j - 6)) % 2 ^ 32
termination_by j
decreasing_by all_goals omega

/-- One round as claim C2 words it: a single 64-round loop that uses the
xor round functions for rounds 0-15 and the majority/choose functions for
rounds 16-63, all arithmetic modulo 2^32. -/
def roundSpec (blk : List Nat) (j : Nat) : Regs → Regs
  | (A, B, C, D, E, F, G, H) =>
    let ff := if j < 16 then SM3_FF00 else SM3_FF16
    let gg := if j < 16 then SM3_GG00 else SM3_GG16
    let SS1 := SM3_ROL32 ((SM3_ROL32 A 12 + E + K.getD j 0) % 2 ^ 32) 7
    let SS2 := (SS1 ^^^ SM3_ROL32 A 12) % 2 ^ 32
    let Wp := (Wspec blk j ^^^ Wspec blk (j + 4)) % 2 ^ 32
    let TT1 := (ff A B C + D + SS2 + Wp) % 2 ^ 32
    let TT2 := (gg E F G + H + SS1 + Wspec blk j) % 2 ^ 32
    (TT1, A, SM3_ROL32 B 9, C, SM3_P0 TT2, E, SM3_ROL32 F 19, G)

/-- The compression function on one 64-byte block as claim C2 words it:
load the registers from the chaining state, run the 64 rounds over the
recurrence-defined schedule, and XOR the final registers element-wise back
into the chaining-state words. -/
def compressSpec (st blk : List Nat) : List Nat :=
  let r0 : Regs := (st.getD 0 0, st.getD 1 0, st.getD 2 0, st.getD 3 0,
    st.getD 4 0, st.getD 5 0, st.getD 6 0, st.getD 7 0)
  feedForward st ((List.range 64).foldl (fun r j => roundSpec blk j r) r0)

/-- The spec's serialization of the chaining state: the 8 words emitted as
32 big-endian bytes. -/
def serializeState (st : List Nat) : List Nat := (st.map be32).flatten

/-- Finalization as claim C3 words it: write the `0x80` marker at `pending`;
if `64 - pending - 1 >= 8`, zero-fill up to byte 56, write the 64-bit
big-endian bit-length into bytes 56-63 and compress exactly one final
block; otherwise zero-fill the rest of the block, compress it with no
length field, then compress a second block that is all zero except for the
length field in its last 8 bytes; finally emit the 8 chaining-state words
as 32 big-endian bytes. -/
def sm3_finalSpec (c : SM3Ctx) : List Nat :=
  let totalBits := c.nblocks * 512 + c.num * 8
  let msg := c.block.take c.num
  if 8 ≤ 64 - c.num - 1 then
    serializeState (sm3_compress c.state
      (msg ++ [0x80] ++ List.replicate (56 - (c.num + 1)) 0 ++
        be64 totalBits))
  else
    serializeState (sm3_compress
      (sm3_compress c.state
        (msg ++ [0x80] ++ List.replicate (64 - (c.num + 1)) 0))
      (List.replicate 56 0 ++ be64 totalBits))

/-! ### General lemmas -/

theorem Wspec_lt (blk : List Nat) (j : Nat) (h : j < 16) :
    Wspec blk j = readBE32 blk (j * 4) := by
  unfold Wspec
  rw [if_pos h]

theorem Wspec_ge (blk : List Nat) (j : Nat) (h : 16 ≤ j) :
    Wspec blk j =
      (SM3_P1 (Wspec blk (j - 16) ^^^ Wspec blk (j - 9) ^^^
          SM3_ROL32 (Wspec blk (j - 3)) 15) ^^^
        SM3_ROL32 (Wspec blk (j - 13)) 7 ^^^ Wspec blk (j - 6)) % 2 ^ 32 := by
  conv_lhs => unfold Wspec
  rw [if_neg (by omega)]

theorem two_pow_mul_lor_eq_add (k : Nat) : ∀ a b : Nat, b < 2 ^ k →
    2 ^ k * a ||| b = 2 ^ k * a + b := by
  induction k with
  | zero =>
    intro a b h
    interval_cases b
    simp
  | succ k ih =>
    intro a b h
    have hpow : 2 ^ (k + 1) = 2 * 2 ^ k := by ring
    have h1 : 2 ^ (k + 1) * a = Nat.bit false (2 ^ k * a) := by
      simp [Nat.bit_val]
      ring
    have h3 : b.div2 < 2 ^ k := by
      rw [Nat.div2_val]
      omega
    have h4 := Nat.bodd_add_div2 b
    calc 2 ^ (k + 1) * a ||| b
        = Nat.bit false (2 ^ k * a) ||| Nat.bit b.bodd b.div2 := by
          rw [← h1, Nat.bit_decomp]
      _ = Nat.bit b.bodd (2 ^ k * a ||| b.div2) := by rw [Nat.lor_bit]; rfl
      _ = Nat.bit b.bodd (2 ^ k * a + b.div2) := by rw [ih a b.div2 h3]
      _ = 2 ^ (k + 1) * a + b := by
          have hc : 2 ^ (k + 1) * a = 2 * (2 ^ k * a) := by ring
          rw [Nat.bit_val, hc]
          cases hb : b.bodd <;> simp [hb] at h4 ⊢ <;> omega

theorem getD_lt_256 {l : List Nat} (h : ∀ b ∈ l, b < 256) (i : Nat) :
    l.getD i 0 < 256 := by
  by_cases hi : i < l.length
  · rw [List.getD_eq_getElem _ _ hi]
    exact h _ (List.getElem_mem hi)
  · rw [List.getD_eq_default _ _ (by omega)]
    norm_num

theorem SM3_GETU32_eq_readBE32 {data : List Nat} (h : ∀ b ∈ data, b < 256)
    (offset : Nat) : SM3_GETU32 data offset = readBE32 data offset := by
  have h0 := getD_lt_256 h offset
  have h1 := getD_lt_256 h (offset + 1)
  have h2 := getD_lt_256 h (offset + 2)
  have h3 := getD_lt_256 h (offset + 3)
  unfold SM3_GETU32 readBE32
  set a := data.getD offset 0 with ha
  set b := data.getD (offset + 1) 0 with hb
  set c := data.getD (offset + 2) 0 with hc
  set d := data.getD (offset + 3) 0 with hd
  have ma : a * 2 ^ 24 % 2 ^ 32 = a * 2 ^ 24 := Nat.mod_eq_of_lt (by omega)
  have mb : b * 2 ^ 16 % 2 ^ 32 = b * 2 ^ 16 := Nat.mod_eq_of_lt (by omega)
  have mc : c * 2 ^ 8 % 2 ^ 32 = c * 2 ^ 8 := Nat.mod_eq_of_lt (by omega)
  have md : d % 2 ^ 32 = d := Nat.mod_eq_of_lt (by omega)
  rw [ma, mb, mc, md]
  have s1 : a * 2 ^ 24 ||| b * 2 ^ 16 = a * 2 ^ 24 + b * 2 ^ 16 := by
    rw [Nat.mul_comm a]
    exact two_pow_mul_lor_eq_add 24 a (b * 2 ^ 16) (by omega)
  have s2 : a * 2 ^ 24 + b * 2 ^ 16 ||| c * 2 ^ 8
      = a * 2 ^ 24 + b * 2 ^ 16 + c * 2 ^ 8 := by
    have hx : a * 2 ^ 24 + b * 2 ^ 16 = 2 ^ 16 * (a * 2 ^ 8 + b) := by ring
    rw [hx]
    exact two_pow_mul_lor_eq_add 16 _ _ (by omega)
  have s3 : a * 2 ^ 24 + b * 2 ^ 16 + c * 2 ^ 8 ||| d
      = a * 2 ^ 24 + b * 2 ^ 16 + c * 2 ^ 8 + d := by
    have hx : a * 2 ^ 24 + b * 2 ^ 16 + c * 2 ^ 8
        = 2 ^ 8 * (a * 2 ^ 16 + b * 2 ^ 8 + c) := by ring
    rw [hx]
    exact two_pow_mul_lor_eq_add 8 _ _ (by omega)
  rw [s1, s2, s3]

theorem Wext_getD (blk : List Nat) : ∀ (k : Nat) (w : List Nat),
    16 ≤ w.length →
    (∀ i, i < w.length → w.getD i 0 = Wspec blk i) →
    ∀ i, i < w.length + k → (Wext w k).getD i 0 = Wspec blk i := by
  intro k
  induction k with
  | zero =>
    intro w _ hw i hi
    exact hw i (by omega)
  | succ n ih =>
    intro w hlen hw i hi
    show (Wext (w ++ [wextStep w w.length]) n).getD i 0 = Wspec blk i
    apply ih (w ++ [wextStep w w.length]) (by simp; omega) _ i
      (by simp; omega)
    intro i' hi'
    by_cases hlt : i' < w.length
    · rw [List.getD_append _ _ _ _ hlt]
      exact hw i' hlt
    · have hieq : i' = w.length := by simp at hi'; omega
      subst hieq
      rw [List.getD_append_right _ _ _ _ (le_refl _)]
      simp only [Nat.sub_self, List.getD_cons_zero]
      rw [Wspec_ge blk w.length hlen]
      unfold wextStep
      rw [hw _ (by omega), hw _ (by omega), hw _ (by omega),
        hw _ (by omega), hw _ (by omega)]

theorem sm3_W_getD {blk : List Nat} (hbytes : ∀ b ∈ blk, b < 256)
    (i : Nat) (hi : i < 68) : (sm3_W blk 0).getD i 0 = Wspec blk i := by
  apply Wext_getD blk 52 _ (by simp) _ i (by simp; omega)
  intro j hj
  simp only [List.length_map, List.length_range] at hj
  rw [List.getD_eq_getElem _ _ (by simp; omega)]
  simp only [List.getElem_map, List.getElem_range]
  rw [SM3_GETU32_eq_readBE32 hbytes, Wspec_lt blk j hj, Nat.zero_add]

theorem foldl_congr_mem {α β : Type} {f g : α → β → α} {l : List β}
    (h : ∀ b ∈ l, ∀ a, f a b = g a b) : ∀ a, l.foldl f a = l.foldl g a := by
  induction l with
  | nil => intro a; rfl
  | cons x xs ih =>
    intro a
    rw [List.foldl_cons, List.foldl_cons, h x (by simp)]
    exact ih (fun b hb a => h b (by simp [hb]) a) _

theorem range_64_split : List.range 64 = List.range 16 ++ List.range' 16 48 := by
  decide

theorem range'_16_48_bounds : ∀ j ∈ List.range' 16 48, 16 ≤ j ∧ j < 64 := by
  decide

theorem sm3_round_lo_eq {blk : List Nat} (hbytes : ∀ b ∈ blk, b < 256)
    {j : Nat} (hj : j < 16) (r : Regs) :
    sm3_round SM3_FF00 SM3_GG00 (sm3_W blk 0) j r = roundSpec blk j r := by
  obtain ⟨A, B, C, D, E, F, G, H⟩ := r
  simp only [sm3_round, roundSpec, if_pos hj]
  rw [sm3_W_getD hbytes j (by omega), sm3_W_getD hbytes (j + 4) (by omega)]

theorem sm3_round_hi_eq {blk : List Nat} (hbytes : ∀ b ∈ blk, b < 256)
    {j : Nat} (hj16 : 16 ≤ j) (hj : j < 64) (r : Regs) :
    sm3_round SM3_FF16 SM3_GG16 (sm3_W blk 0) j r = roundSpec blk j r := by
  obtain ⟨A, B, C, D, E, F, G, H⟩ := r
  simp only [sm3_round, roundSpec, if_neg (by omega : ¬j < 16)]
  rw [sm3_W_getD hbytes j (by omega), sm3_W_getD hbytes (j + 4) (by omega)]

theorem sm3_rounds_eq_spec {blk : List Nat} (hbytes : ∀ b ∈ blk, b < 256)
    (r0 : Regs) :
    (List.range' 16 48).foldl
      (fun r j => sm3_round SM3_FF16 SM3_GG16 (sm3_W blk 0) j r)
      ((List.range 16).foldl
        (fun r j => sm3_round SM3_FF00 SM3_GG00 (sm3_W blk 0) j r) r0) =
    (List.range 64).foldl (fun r j => roundSpec blk j r) r0 := by
  rw [range_64_split, List.foldl_append]
  rw [foldl_congr_mem
    (fun j hj r => sm3_round_lo_eq hbytes (List.mem_range.mp hj) r) r0]
  exact foldl_congr_mem
    (fun j hj r => sm3_round_hi_eq hbytes (range'_16_48_bounds j hj).1
      (range'_16_48_bounds j hj).2 r) _

theorem length_sm3_memset (v : Nat) : ∀ (n : Nat) (l : List Nat) (off : Nat),
    (sm3_memset l off v n).length = l.length := by
  intro n
  induction n with
  | zero => intro l off; rfl
  | succ m ih =>
    intro l off
    show (sm3_memset (l.set off v) (off + 1) v m).length = _
    rw [ih, List.length_set]

theorem getElem?_sm3_memset (v : Nat) :
    ∀ (n : Nat) (l : List Nat) (off i : Nat),
    (sm3_memset l off v n)[i]? =
      if off ≤ i ∧ i < off + n ∧ i < l.length then some v else l[i]? := by
  intro n
  induction n with
  | zero =>
    intro l off i
    rw [if_neg (by omega)]
    rfl
  | succ m ih =>
    intro l off i
    show (sm3_memset (l.set off v) (off + 1) v m)[i]? = _
    rw [ih, List.length_set, List.getElem?_set]
    split_ifs <;>
      first
        | rfl
        | omega
        | exact (List.getElem?_eq_none (by omega)).symm

theorem length_SM3_PUTU32 (l : List Nat) (off v : Nat) :
    (SM3_PUTU32 l off v).length = l.length := by
  simp [SM3_PUTU32]

theorem getElem?_SM3_PUTU32 (l : List Nat) (off v i : Nat) :
    (SM3_PUTU32 l off v)[i]? =
      if off ≤ i ∧ i < off + 4 ∧ i < l.length then
        some ((be32 v).getD (i - off) 0)
      else l[i]? := by
  unfold SM3_PUTU32
  simp only [List.getElem?_set, List.length_set]
  split_ifs <;>
    first
      | rfl
      | omega
      | (rw [show i - off = 0 by omega]; rfl)
      | (rw [show i - off = 1 by omega]; rfl)
      | (rw [show i - off = 2 by omega]; rfl)
      | (rw [show i - off = 3 by omega]; rfl)
      | exact (List.getElem?_eq_none (by omega)).symm

theorem getElem?_be32_lt (v : Nat) {i : Nat} (h : i < 4) :
    (be32 v)[i]? = some ((be32 v).getD i 0) := by
  interval_cases i <;> rfl

theorem final_block_one (block : List Nat) (num hi lo : Nat) (hnum : num ≤ 55)
    (hlen : block.length = 64) :
    SM3_PUTU32 (SM3_PUTU32 (sm3_memset (block.set num 0x80) (num + 1) 0
      (64 - num - 9)) 56 hi) 60 lo =
    block.take num ++ [0x80] ++ List.replicate (56 - (num + 1)) 0 ++
      be32 hi ++ be32 lo := by
  have l1 : (block.take num).length = num := by simp; omega
  have l2 : (block.take num ++ [0x80]).length = num + 1 := by simp [l1]
  have l3 : (block.take num ++ [0x80] ++
      List.replicate (56 - (num + 1)) 0).length = 56 := by
    simp [List.length_append, l1]
    omega
  have l4 : (block.take num ++ [0x80] ++ List.replicate (56 - (num + 1)) 0 ++
      be32 hi).length = 60 := by
    rw [List.length_append, l3]
    rfl
  apply List.ext_getElem?
  intro i
  rw [getElem?_SM3_PUTU32, getElem?_SM3_PUTU32, getElem?_sm3_memset]
  simp only [length_SM3_PUTU32, length_sm3_memset, List.length_set, hlen]
  rcases Nat.lt_or_ge i 64 with h64 | h64
  · rcases Nat.lt_trichotomy i num with h1 | h1 | h1
    · rw [if_neg (by omega), if_neg (by omega), if_neg (by omega),
        List.getElem?_set_ne (by omega),
        List.getElem?_append, l4, if_pos (by omega),
        List.getElem?_append, l3, if_pos (by omega),
        List.getElem?_append, l2, if_pos (by omega),
        List.getElem?_append, l1, if_pos h1,
        List.getElem?_take, if_pos h1]
    · subst h1
      rw [if_neg (by omega), if_neg (by omega), if_neg (by omega),
        List.getElem?_set_self (by omega),
        List.getElem?_append, l4, if_pos (by omega),
        List.getElem?_append, l3, if_pos (by omega),
        List.getElem?_append, l2, if_pos (by omega),
        List.getElem?_append, l1, if_neg (by omega),
        show i - i = 0 by omega]
      rfl
    · rcases Nat.lt_or_ge i 56 with h2 | h2
      · rw [if_neg (by omega), if_neg (by omega), if_pos (by omega),
          List.getElem?_append, l4, if_pos (by omega),
          List.getElem?_append, l3, if_pos (by omega),
          List.getElem?_append, l2, if_neg (by omega),
          List.getElem?_replicate, if_pos (by omega)]
      · rcases Nat.lt_or_ge i 60 with h3 | h3
        · rw [if_neg (by omega), if_pos (by omega),
            List.getElem?_append, l4, if_pos (by omega),
            List.getElem?_append_right
              (by omega : (block.take num ++ [0x80] ++
                List.replicate (56 - (num + 1)) 0).length ≤ i), l3,
            getElem?_be32_lt _ (by omega)]
        · rw [if_pos (by omega),
            List.getElem?_append_right
              (by omega : (block.take num ++ [0x80] ++
                List.replicate (56 - (num + 1)) 0 ++ be32 hi).length ≤ i), l4,
            getElem?_be32_lt _ (by omega)]
  · rw [if_neg (by omega), if_neg (by omega), if_neg (by omega),
      List.getElem?_set_ne (by omega),
      List.getElem?_eq_none (by omega),
      List.getElem?_eq_none
        (by rw [List.length_append, l4]; simp [be32]; omega)]

theorem final_block_two_a (block : List Nat) (num : Nat) (h56 : 56 ≤ num)
    (hnum : num ≤ 63) (hlen : block.length = 64) :
    sm3_memset (block.set num 0x80) (num + 1) 0 (64 - num - 1) =
    block.take num ++ [0x80] ++ List.replicate (64 - (num + 1)) 0 := by
  have l1 : (block.take num).length = num := by simp; omega
  have l2 : (block.take num ++ [0x80]).length = num + 1 := by simp [l1]
  apply List.ext_getElem?
  intro i
  rw [getElem?_sm3_memset]
  simp only [List.length_set, hlen]
  rcases Nat.lt_or_ge i 64 with h64 | h64
  · rcases Nat.lt_trichotomy i num with h1 | h1 | h1
    · rw [if_neg (by omega), List.getElem?_set_ne (by omega),
        List.getElem?_append, l2, if_pos (by omega),
        List.getElem?_append, l1, if_pos h1, List.getElem?_take, if_pos h1]
    · subst h1
      rw [if_neg (by omega), List.getElem?_set_self (by omega),
        List.getElem?_append, l2, if_pos (by omega),
        List.getElem?_append, l1, if_neg (by omega), show i - i = 0 by omega]
      rfl
    · rw [if_pos (by omega),
        List.getElem?_append, l2, if_neg (by omega),
        List.getElem?_replicate, if_pos (by omega)]
  · rw [if_neg (by omega), List.getElem?_set_ne (by omega),
      List.getElem?_eq_none (by omega),
      List.getElem?_eq_none (by rw [List.length_append, l2]; simp; omega)]

theorem final_block_two_b (b : List Nat) (hi lo : Nat) (hlen : b.length = 64) :
    SM3_PUTU32 (SM3_PUTU32 (sm3_memset b 0 0 (64 - 8)) 56 hi) 60 lo =
    List.replicate 56 0 ++ be32 hi ++ be32 lo := by
  have l3 : (List.replicate (56 : Nat) (0 : Nat)).length = 56 := by simp
  have l4 : (List.replicate 56 (0 : Nat) ++ be32 hi).length = 60 := by
    simp [be32]
  apply List.ext_getElem?
  intro i
  rw [getElem?_SM3_PUTU32, getElem?_SM3_PUTU32, getElem?_sm3_memset]
  simp only [length_SM3_PUTU32, length_sm3_memset, hlen]
  rcases Nat.lt_or_ge i 56 with h2 | h2
  · rw [if_neg (by omega), if_neg (by omega), if_pos (by omega),
      List.getElem?_append, l4, if_pos (by omega),
      List.getElem?_append, l3, if_pos (by omega),
      List.getElem?_replicate, if_pos (by omega)]
  · rcases Nat.lt_or_ge i 60 with h3 | h3
    · rw [if_neg (by omega), if_pos (by omega),
        List.getElem?_append, l4, if_pos (by omega),
        List.getElem?_append, l3, if_neg (by omega),
        getElem?_be32_lt _ (by omega)]
    · rcases Nat.lt_or_ge i 64 with h4 | h4
      · rw [if_pos (by omega),
          List.getElem?_append, l4, if_neg (by omega),
          getElem?_be32_lt _ (by omega)]
      · rw [if_neg (by omega), if_neg (by omega), if_neg (by omega),
          List.getElem?_eq_none (by omega),
          List.getElem?_eq_none
            (by rw [List.length_append, l4]; simp [be32]; omega)]

theorem be32_mod (v : Nat) : be32 (v % 2 ^ 32) = be32 v := by
  simp only [be32, List.cons.injEq, and_true]
  refine ⟨by omega, by omega, by omega, by omega⟩

theorem length_feedForward (st : List Nat) (r : Regs) :
    (feedForward st r).length = st.length := by
  obtain ⟨A, B, C, D, E, F, G, H⟩ := r
  simp [feedForward]

theorem length_sm3_compress (st b : List Nat) :
    (sm3_compress st b).length = st.length := by
  show (sm3_compress1 st b 0).length = st.length
  unfold sm3_compress1
  exact length_feedForward st _

theorem serialize_foldl {st : List Nat} (h : st.length = 8) :
    (List.range 8).foldl (fun d i => SM3_PUTU32 d (i * 4) (st.getD i 0))
      (List.replicate 32 0) = serializeState st := by
  rcases st with _ | ⟨a, st⟩; · simp at h
  rcases st with _ | ⟨b, st⟩; · simp at h
  rcases st with _ | ⟨c, st⟩; · simp at h
  rcases st with _ | ⟨d, st⟩; · simp at h
  rcases st with _ | ⟨e, st⟩; · simp at h
  rcases st with _ | ⟨f, st⟩; · simp at h
  rcases st with _ | ⟨g, st⟩; · simp at h
  rcases st with _ | ⟨hh, st⟩; · simp at h
  rcases st with _ | ⟨x, st⟩
  · simp [SM3_PUTU32, be32, serializeState, List.replicate, List.range_succ]
  · simp at h

/-! ### Frame lemmas for the memory-level model -/

theorem sm3_memcpy_mem_frame (m : Mem) (dst dst_offset src src_offset len j : Nat)
    (h : j ≠ dst) :
    sm3_memcpy_mem m dst dst_offset src src_offset len j = m j := by
  induction len generalizing m dst_offset src_offset with
  | zero => rfl
  | succ n ih => simp [sm3_memcpy_mem, ih, memWrite, h]

theorem sm3_compress_blocks_mem_frame (m : Mem) (st data offset blocks j : Nat)
    (h : j ≠ st) :
    sm3_compress_blocks_mem m st data offset blocks j = m j := by
  induction blocks generalizing m with
  | zero => rfl
  | succ n ih => simp [sm3_compress_blocks_mem, ih, memWrite, h]

theorem sm3_update_bulk_mem_frame (m : Mem) (st blk data nblocks off len j : Nat)
    (hs : j ≠ st) (hb : j ≠ blk) :
    (sm3_update_bulk_mem m st blk data nblocks off len).1 j = m j := by
  unfold sm3_update_bulk_mem
  by_cases h1 : 0 < len / 64 <;> by_cases h2 : len - 64 * (len / 64) ≠ 0 <;>
    simp [h1, h2, sm3_memcpy_mem_frame, sm3_compress_blocks_mem_frame, hs, hb]

/-! ### Claim theorems -/

/-- C1: the claim states that feeding a message in chunks through
`init/update/update/final` yields the same digest as the one-shot `digest`.
This is false: `sm3_compress_blocks` never advances its read offset between
block iterations, so a single `update` spanning two different 64-byte blocks
compresses the first window twice, while chunk-per-block streaming
compresses each block once.  Concretely, the one-shot digest of the 128-byte
message `0^64 ‖ 1^64` differs from the digest obtained by updating with the
two 64-byte halves in order. -/
theorem c1_streaming_vs_oneshot_counterexample :
    sm3 (List.replicate 64 0 ++ List.replicate 64 1) ≠
      (sm3_final
        (sm3_update (sm3_update sm3_ctx_new (List.replicate 64 0))
          (List.replicate 64 1))
        (List.replicate 32 0)).2 := by decide

/-- C3 (counterexample to the claim as stated): for a context with 2^33
processed blocks and one pending byte, the 8 bytes that `final()` writes at
positions 56-63 differ from the 64-bit big-endian encoding of the total bit
count, because the source computes the high word as `nblocks >>> 23`, a
JavaScript shift that truncates `nblocks` to 32 bits first. -/
theorem c3_length_field_counterexample :
    (sm3_final ⟨sm3_ctx_new.state, List.replicate 64 0, 2 ^ 33, 1⟩
        (List.replicate 32 0)).1.block.drop 56 ≠
      be64 (2 ^ 33 * 512 + 1 * 8) := by decide

/-- C3 (amended): for every context with `pending < 64`, a 64-byte scratch
block, an 8-word state, and fewer than 2^32 processed blocks, `final()`
behaves exactly as the claim states: a single `0x80` marker at `pending`;
when `64 - pending - 1 >= 8`, zero fill up to byte 56, the 64-bit
big-endian bit-length in bytes 56-63, and exactly one compressed block;
otherwise a zero-filled block compressed with no length field followed by a
second compressed block that is all zero except the length field in its
last 8 bytes; finally the 8 chaining words are emitted as 32 big-endian
bytes. -/
theorem c3_final_padding_characterization (c : SM3Ctx) (hnum : c.num < 64)
    (hblk : c.block.length = 64) (hst : c.state.length = 8)
    (hnb : c.nblocks < 2 ^ 32) :
    (sm3_final c (List.replicate 32 0)).2 = sm3_finalSpec c := by
  have hhi : c.nblocks % 2 ^ 32 / 2 ^ 23
      = (c.nblocks * 512 + c.num * 8) / 2 ^ 32 := by
    rw [Nat.mod_eq_of_lt hnb]
    omega
  have hlo : be32 ((c.nblocks * 2 ^ 9 + c.num * 2 ^ 3) % 2 ^ 32)
      = be32 (c.nblocks * 512 + c.num * 8) := by
    rw [show c.nblocks * 2 ^ 9 + c.num * 2 ^ 3
      = c.nblocks * 512 + c.num * 8 by ring]
    exact be32_mod _
  simp only [sm3_final, sm3_finalSpec]
  by_cases hc : c.num + 9 ≤ 64
  · rw [if_pos hc, if_pos (show 8 ≤ 64 - c.num - 1 by omega)]
    dsimp only
    rw [final_block_one c.block c.num _ _ (by omega) hblk,
      serialize_foldl (by rw [length_sm3_compress]; exact hst),
      hhi, hlo]
    simp only [be64]
    rw [← List.append_assoc]
  · rw [if_neg hc, if_neg (show ¬8 ≤ 64 - c.num - 1 by omega)]
    dsimp only
    rw [final_block_two_a c.block c.num (by omega) (by omega) hblk,
      final_block_two_b _ _ _ (by simp [List.length_append, hblk]; omega),
      serialize_foldl
        (by rw [length_sm3_compress, length_sm3_compress]; exact hst),
      hhi, hlo]
    simp only [be64]
    rw [← List.append_assoc]

/-- C3 witness: the characterization applied to the fresh context. -/
theorem c3_final_padding_characterization_witness :
    sm3_ctx_new.num < 64 ∧ sm3_ctx_new.block.length = 64 ∧
      sm3_ctx_new.state.length = 8 ∧ sm3_ctx_new.nblocks < 2 ^ 32 ∧
      (sm3_final sm3_ctx_new (List.replicate 32 0)).2 =
        sm3_finalSpec sm3_ctx_new :=
  ⟨by decide, by decide, by decide, by decide,
    c3_final_padding_characterization _ (by decide) (by decide) (by decide)
      (by decide)⟩

/-- C4: the claim states `mac(data, key)` equals
`digest((keyBlock xor 0x5C-pad) ‖ digest((keyBlock xor 0x36-pad) ‖ data))`.
This fails for 64-byte data (key = empty, so the key block is 64 zero
bytes): the MAC path compresses the inner-padded key block and the data
block each once, while the one-shot inner digest bulk-compresses its first
64-byte window twice because `sm3_compress_blocks` never advances its
offset. -/
theorem c4_hmac_nested_equation_counterexample :
    sm3_hmac (List.replicate 64 0) [] ≠
      sm3 ((List.replicate 64 0).map (fun b => b ^^^ 0x5C) ++
        sm3 ((List.replicate 64 0).map (fun b => b ^^^ 0x36) ++
          List.replicate 64 0)) := by decide

/-- C2: for every 8-word chaining state and 64-byte block of bytes, one
application of the compression function equals the spec-level compression:
the schedule is the recurrence `W[j] = P1(W[j-16] xor W[j-9] xor
rotl(W[j-3],15)) xor rotl(W[j-13],7) xor W[j-6]` over 16 big-endian loads,
the 64 rounds use the xor functions below round 16 and majority/choose from
round 16 on, all arithmetic is mod 2^32, and the final registers are XORed
element-wise into the chaining-state words rather than overwriting them. -/
theorem c2_compress_one_block_refines_spec (st blk : List Nat)
    (_hlen : blk.length = 64) (hbytes : ∀ b ∈ blk, b < 256) :
    sm3_compress st blk = compressSpec st blk := by
  show feedForward st
      ((List.range' 16 48).foldl
        (fun r j => sm3_round SM3_FF16 SM3_GG16 (sm3_W blk 0) j r)
        ((List.range 16).foldl
          (fun r j => sm3_round SM3_FF00 SM3_GG00 (sm3_W blk 0) j r)
          (st.getD 0 0, st.getD 1 0, st.getD 2 0, st.getD 3 0,
            st.getD 4 0, st.getD 5 0, st.getD 6 0, st.getD 7 0))) =
    feedForward st
      ((List.range 64).foldl (fun r j => roundSpec blk j r)
        (st.getD 0 0, st.getD 1 0, st.getD 2 0, st.getD 3 0,
          st.getD 4 0, st.getD 5 0, st.getD 6 0, st.getD 7 0))
  rw [sm3_rounds_eq_spec hbytes]

/-- C2 witness: the refinement applied to the initial chaining constants
and the all-zero block. -/
theorem c2_compress_one_block_refines_spec_witness :
    (List.replicate 64 0).length = 64 ∧
      (∀ b ∈ List.replicate 64 (0 : Nat), b < 256) ∧
      sm3_compress sm3_ctx_new.state (List.replicate 64 0) =
        compressSpec sm3_ctx_new.state (List.replicate 64 0) :=
  ⟨by decide, by decide,
    c2_compress_one_block_refines_spec _ _ (by decide) (by decide)⟩

/-- C5: the claim states `kdf(secret, len)` is the truncation of the
concatenation of `digest(secret ‖ bigEndian32(counter))`.  This fails for a
124-byte secret: inside `kdf` the 4 counter bytes complete the partially
filled scratch block, which is then compressed with its correct contents,
while the one-shot digest of the 128-byte concatenation bulk-compresses its
first 64-byte window twice (`sm3_compress_blocks` never advances its
offset). -/
theorem c5_kdf_spec_counterexample :
    sm3_kdf (List.replicate 124 0) 32 ≠
      (sm3 (List.replicate 124 0 ++
        SM3_PUTU32 (List.replicate 4 0) 0 1)).take 32 := by decide

/-- C6: the claim states the 8-byte length field always encodes the exact
total bit count, with high word `totalBits div 2^32`, without silent
wrapping.  At `blocksProcessed = 2^32` (a message of 2^38 bytes) the exact
encoding of `totalBits = 2^32 * 512` has high word 512, but the source's
`ctx.nblocks >>> 23` truncates `nblocks` to 32 bits first, so `sm3_final`
writes an all-zero length field. -/
theorem c6_length_field_wraps :
    ((sm3_final ⟨sm3_ctx_new.state, List.replicate 64 0, 2 ^ 32, 0⟩
        (List.replicate 32 0)).1.block.drop 56 = List.replicate 8 0) ∧
      be64 (2 ^ 32 * 512 + 0 * 8) ≠ List.replicate 8 0 := by decide

/-- C7: the claim states a negative requested KDF length fails fatally with
a synchronously reported error.  The code has no validation and no throw
path: for `klen = -1` the loop bound `Math.ceil(klen/32)` is `0`, so no
digest is computed, and `key.slice(0, -1)` silently returns an empty array
instead of raising an error. -/
theorem c7_kdf_negative_returns_silently :
    sm3_kdf [] (-1) = [] := by decide

/-- C8 (counterexample): the claim states the context's state is zeroed
after `final()` returns.  On a fresh context, `sm3_final` leaves the eight
chaining words holding the digest of the empty message, which is not the
zero state. -/
theorem c8_state_not_zeroed_counterexample :
    (sm3_final sm3_ctx_new (List.replicate 32 0)).1.state ≠
      List.replicate 8 0 := by decide

/-- C8 (amended): after `final()` returns, the context is not zeroed: it
retains the final chaining state, whose big-endian serialization is exactly
the digest that `final()` returned; the context must be re-initialized with
`init()` before reuse. -/
theorem c8_state_retained_after_final (c : SM3Ctx)
    (hst : c.state.length = 8) :
    (sm3_final c (List.replicate 32 0)).2 =
      serializeState ((sm3_final c (List.replicate 32 0)).1.state) := by
  simp only [sm3_final]
  apply serialize_foldl
  rw [length_sm3_compress]
  split
  · exact hst
  · rw [length_sm3_compress]
    exact hst

/-- C8 witness: the retained-state characterization on the fresh context. -/
theorem c8_state_retained_after_final_witness :
    sm3_ctx_new.state.length = 8 ∧
      (sm3_final sm3_ctx_new (List.replicate 32 0)).2 =
        serializeState ((sm3_final sm3_ctx_new (List.replicate 32 0)).1.state) :=
  ⟨by decide, c8_state_retained_after_final sm3_ctx_new (by decide)⟩

/-- C9: the invariant `pending < 64` holds after `init()` and is preserved
by every `update()` call with data of any length. -/
theorem c9_pending_invariant :
    (∀ c : SM3Ctx, (sm3_init c).num < 64) ∧
      ∀ (c : SM3Ctx) (data : List Nat), c.num < 64 →
        (sm3_update c data).num < 64 := by
  refine ⟨fun c => by simp [sm3_init], fun c data h => ?_⟩
  simp only [sm3_update, sm3_update_bulk]
  split
  · split
    · simpa using by omega
    · simp only []
      omega
  · simp only []
    omega

/-- C9 witness: the invariant instantiated on the fresh context and one
concrete update. -/
theorem c9_pending_invariant_witness :
    sm3_ctx_new.num < 64 ∧ (sm3_update sm3_ctx_new [1, 2, 3]).num < 64 :=
  ⟨c9_pending_invariant.1 ⟨List.replicate 8 0, List.replicate 64 0, 0, 0⟩,
    c9_pending_invariant.2 sm3_ctx_new [1, 2, 3] (by decide)⟩

/-- C10: over the explicit store model, `sm3_memcpy` writes only its
destination array, `sm3_compress_blocks` writes only the state array, and
`sm3_update` writes only the context's state and scratch-block arrays; in
particular every array passed as message or key input is unchanged when the
call returns. -/
theorem c10_inputs_not_modified :
    (∀ (m : Mem) (dst dst_offset src src_offset len j : Nat), j ≠ dst →
        sm3_memcpy_mem m dst dst_offset src src_offset len j = m j) ∧
      (∀ (m : Mem) (st data offset blocks j : Nat), j ≠ st →
        sm3_compress_blocks_mem m st data offset blocks j = m j) ∧
      ∀ (m : Mem) (st blk data nblocks num j : Nat), j ≠ st → j ≠ blk →
        (sm3_update_mem m st blk data nblocks num).1 j = m j := by
  refine ⟨sm3_memcpy_mem_frame, sm3_compress_blocks_mem_frame,
    fun m st blk data nblocks num j hs hb => ?_⟩
  simp only [sm3_update_mem]
  split
  · split
    · exact sm3_memcpy_mem_frame _ _ _ _ _ _ _ hb
    · rw [sm3_update_bulk_mem_frame _ _ _ _ _ _ _ _ hs hb,
        sm3_compress_blocks_mem_frame _ _ _ _ _ _ hs,
        sm3_memcpy_mem_frame _ _ _ _ _ _ _ hb]
  · exact sm3_update_bulk_mem_frame _ _ _ _ _ _ _ _ hs hb

/-- C10 witness: a concrete store where the input array (identifier 3) is
untouched by an update writing state array 0 and block array 1. -/
theorem c10_inputs_not_modified_witness :
    (sm3_update_mem (fun _ => [7, 7]) 0 1 2 0 0).1 3 = [7, 7] :=
  c10_inputs_not_modified.2.2 (fun _ => [7, 7]) 0 1 2 0 0 3 (by decide)
    (by decide)

end SM3
